import Mathlib

/-
  Verification of the third-party bootstrapper (bootstrap.py).

  The script is embedded shallowly: manifest entries become structures with
  optional fields (mirroring `dict.get(key, None)`); the filesystem and the
  external tools (network downloads, VCS commands, the patch tool) are
  abstracted behind an environment of outcome oracles, and each function of
  the script becomes a Lean function that threads the directory state and
  emits a trace of the externally observable actions it performs, in order.
-/

namespace Bootstrap

/-- State of one library workspace directory under `src/`. -/
inductive DirSt where
  | absent
  | empty
  | nonempty
deriving DecidableEq, Repr

/-- The `source` object of a manifest entry; every field is optional,
mirroring `source.get(k, None)` / `k in source` in the script. -/
structure RawSource where
  type? : Option String
  url? : Option String
  revision? : Option String
  sha1? : Option String
  userAgent? : Option String
deriving DecidableEq, Repr

/-- The `postprocess` object of a manifest entry. -/
structure RawPost where
  type? : Option String
  file? : Option String
  pnum? : Option Nat
deriving DecidableEq, Repr

/-- One manifest entry (a JSON object of bootstrap.json); structural
equality of entries models Python dict equality `slibrary == library`. -/
structure RawEntry where
  name? : Option String
  source? : Option RawSource
  postprocess? : Option RawPost
deriving DecidableEq, Repr

/-- VCS commands issued by `cloneRepository`. -/
inductive Cmd where
  | hgClone | hgPull | hgUpdate | hgPurge
  | gitClone | gitFetch | gitReset | gitClean
  | svnCheckout
deriving DecidableEq, Repr

/-- Argument mode of the patch tool (default text arguments vs `--binary`). -/
inductive PatchMode where
  | text
  | binary
deriving DecidableEq, Repr

/-- Filesystem and external-tool actions performed while acquiring or
post-processing one library, in program order. -/
inductive Act where
  | cleanRm (name : String)
  | makedirs (name : String)
  | rmLib (name : String)
  | mkLib (name : String)
  | download (name : String) (fallback : Bool)
  | copyFile (name : String)
  | extract (name : String) (fallback : Bool)
  | cloneCmd (name : String) (c : Cmd)
  | snapshot (name : String)
  | patchDry (name : String) (file : String) (mode : PatchMode)
  | patchReal (name : String) (file : String) (mode : PatchMode)
  | script (name : String) (file : String)
deriving DecidableEq, Repr

/-- Externally observable events of the orchestrator: a work action, or
one of the state-cache operations of the loop. -/
inductive Ev where
  | work (a : Act)
  | removeCache (name : String)
  | addCache (e : RawEntry)
  | persist (file : List RawEntry)
  | failRec (name : String)
deriving DecidableEq, Repr

/-- Command-line options of the script that the loop consults. -/
structure Opts where
  optNames : List String
  skipLibs : List String
  optClean : Bool
  optCleanArchives : Bool
  breakOnFirstError : Bool
  fallbackUrl : String
  forceFallback : Bool
  createRepoSnapshots : Bool

/-- Outcome oracles for the external world: network transfers, archive
extraction, VCS and patch commands, keyed by library name.  `postDir` is
the contents an external post-processing tool leaves in the workspace it
was run in; `initDir` the initial state of each workspace directory;
`stateFile` the contents of the state cache file (`none` when absent). -/
structure Env where
  downloadOk : String → Bool
  fbDownloadOk : String → Bool
  extractOk : String → Bool
  fbExtractOk : String → Bool
  cmdOk : String → Cmd → Bool
  repoMarker : String → String → Bool
  snapshotOk : String → Bool
  patchDryOk : String → PatchMode → Bool
  patchRealOk : String → PatchMode → Bool
  scriptOk : String → Bool
  postDir : String → DirSt
  initDir : String → DirSt
  stateFile : Option (List RawEntry)

/-- Mutable state of `main`: the in-memory cached state `sdata`, the
aggregate failure list, the workspace directories, the last contents
written to the state cache file, and the event trace. -/
structure St where
  sdata : List RawEntry
  failed : List String
  dirs : String → DirSt
  filePersisted : Option (List RawEntry)
  trace : List Ev

/-- Pointwise update of the directory map. -/
def upd (dirs : String → DirSt) (n : String) (v : DirSt) : String → DirSt :=
  fun m => if m = n then v else dirs m

/-! ## Manifest merging (main, lines 669-680) -/

/-- One iteration of the local-overlay loop: replace every entry of `data`
whose `name` equals the local entry's `name`, else append the local entry. -/
def mergeStep (data : List RawEntry) (local_library : RawEntry) : List RawEntry :=
  if data.any fun library => decide (library.name? = local_library.name?) then
    data.map fun library =>
      if library.name? = local_library.name? then local_library else library
  else data ++ [local_library]

/-- Merge of canonical and local library data; local libraries take
precedence (main, lines 669-680). -/
def mergeLibraries (data : List RawEntry) (local_data : List RawEntry) : List RawEntry :=
  local_data.foldl mergeStep data

/-- Modelled from the spec's words, for comparison with `mergeLibraries`:
each canonical entry is replaced in place by the matching local entry when
one exists, and local-only entries are appended at the end in local order. -/
def mergeSpec (data : List RawEntry) (local_data : List RawEntry) : List RawEntry :=
  (data.map fun e => ((local_data.find? fun l => decide (l.name? = e.name?)).getD e)) ++
    local_data.filter fun l => decide (¬ ∃ e ∈ data, e.name? = l.name?)

/-! ## downloadFile (lines 344-400): archive cache and SHA-1 verification -/

/-- External circumstances of one `downloadFile` call: whether the target
file already sits in the download directory, the digest of that cached
copy, the digest the file has after a (re)download, and whether the
network transfer succeeds. -/
structure DlEnv where
  fileExists : Bool
  cachedHash : String
  downloadedHash : String
  netOk : Bool

/-- Result classification of `downloadFile`: a failed transfer, a hash
verification failure (`RuntimeError`), or success. -/
inductive DlOut where
  | netError
  | hashError
  | ok
deriving DecidableEq, Repr

/-- What a `downloadFile` call did: its outcome, whether a download was
performed, and the digest of the file at final-verification time. -/
structure DlRes where
  out : DlOut
  downloaded : Bool
  finalHash : Option String
deriving DecidableEq, Repr

/-- `downloadFile(url, download_dir, target_dir_name, sha1_hash,
force_download, user_agent)` (lines 344-400): a cached file with a
mismatching non-empty expected hash forces a re-download; after the
(possible) download the digest is checked again and a mismatch raises. -/
def downloadFile (e : DlEnv) (sha1_hash : Option String) (force_download : Bool) : DlRes :=
  let force_download :=
    if e.fileExists = true ∧ sha1_hash.isSome ∧ sha1_hash ≠ some "" then
      (if some e.cachedHash ≠ sha1_hash then true else force_download)
    else force_download
  let willDownload := e.fileExists = false ∨ force_download = true
  if willDownload ∧ e.netOk = false then
    { out := DlOut.netError, downloaded := true, finalHash := none }
  else
    let hash_file := if willDownload then e.downloadedHash else e.cachedHash
    if sha1_hash.isSome ∧ sha1_hash ≠ some "" ∧ some hash_file ≠ sha1_hash then
      { out := DlOut.hashError, downloaded := decide willDownload, finalHash := some hash_file }
    else
      { out := DlOut.ok, downloaded := decide willDownload, finalHash := some hash_file }

/-! ## cloneRepository (lines 138-192) -/

/-- Exceptions `cloneRepository` can raise. -/
inductive CloneErr where
  | repoMissing
  | cmdFail
  | svnRevision
  | unknownType
deriving DecidableEq, Repr

/-- Tail of the `hg` branch: `hg update -C <revision>` then `hg purge`,
each failing via `dieIfNonZero`. -/
def hgUpdatePart (env : Env) (target_name : String) (dirs : String → DirSt)
    (evs : List Act) : (String → DirSt) × List Act × Option CloneErr :=
  let evs := evs ++ [Act.cloneCmd target_name Cmd.hgUpdate]
  if env.cmdOk target_name Cmd.hgUpdate = false then (dirs, evs, some CloneErr.cmdFail)
  else
    let evs := evs ++ [Act.cloneCmd target_name Cmd.hgPurge]
    if env.cmdOk target_name Cmd.hgPurge = false then (dirs, evs, some CloneErr.cmdFail)
    else (dirs, evs, none)

/-- Tail of the `git` branch: `git reset --hard <revision>` then
`git clean -fxd`, each failing via `dieIfNonZero`. -/
def gitResetPart (env : Env) (target_name : String) (dirs : String → DirSt)
    (evs : List Act) : (String → DirSt) × List Act × Option CloneErr :=
  let evs := evs ++ [Act.cloneCmd target_name Cmd.gitReset]
  if env.cmdOk target_name Cmd.gitReset = false then (dirs, evs, some CloneErr.cmdFail)
  else
    let evs := evs ++ [Act.cloneCmd target_name Cmd.gitClean]
    if env.cmdOk target_name Cmd.gitClean = false then (dirs, evs, some CloneErr.cmdFail)
    else (dirs, evs, none)

/-- `cloneRepository(type, url, target_name, revision,
try_only_local_operations)` (lines 138-192).  The `.hg`/`.git` marker
check is `repoMarker type target_name`; directory removal before cloning
happens only when the target directory exists.  SVN only ever checks out
and then rejects a non-empty revision with a `RuntimeError`. -/
def cloneRepository (env : Env) (type : String) (target_name : String)
    (revision : Option String) (try_only_local_operations : Bool)
    (dirs : String → DirSt) : (String → DirSt) × List Act × Option CloneErr :=
  if type = "hg" then
    let repo_exists := env.repoMarker "hg" target_name
    if repo_exists = false then
      if try_only_local_operations then (dirs, [], some CloneErr.repoMissing)
      else
        let (dirs, evs) :=
          if dirs target_name ≠ DirSt.absent then
            (upd dirs target_name DirSt.absent, [Act.rmLib target_name])
          else (dirs, ([] : List Act))
        let evs := evs ++ [Act.cloneCmd target_name Cmd.hgClone]
        if env.cmdOk target_name Cmd.hgClone = false then (dirs, evs, some CloneErr.cmdFail)
        else hgUpdatePart env target_name (upd dirs target_name DirSt.nonempty) evs
    else
      if try_only_local_operations = false then
        let evs := [Act.cloneCmd target_name Cmd.hgPull]
        if env.cmdOk target_name Cmd.hgPull = false then (dirs, evs, some CloneErr.cmdFail)
        else hgUpdatePart env target_name dirs evs
      else hgUpdatePart env target_name dirs []
  else if type = "git" then
    let repo_exists := env.repoMarker "git" target_name
    if repo_exists = false then
      if try_only_local_operations then (dirs, [], some CloneErr.repoMissing)
      else
        let (dirs, evs) :=
          if dirs target_name ≠ DirSt.absent then
            (upd dirs target_name DirSt.absent, [Act.rmLib target_name])
          else (dirs, ([] : List Act))
        let evs := evs ++ [Act.cloneCmd target_name Cmd.gitClone]
        if env.cmdOk target_name Cmd.gitClone = false then (dirs, evs, some CloneErr.cmdFail)
        else gitResetPart env target_name (upd dirs target_name DirSt.nonempty) evs
    else
      if try_only_local_operations = false then
        let evs := [Act.cloneCmd target_name Cmd.gitFetch]
        if env.cmdOk target_name Cmd.gitFetch = false then (dirs, evs, some CloneErr.cmdFail)
        else gitResetPart env target_name dirs evs
      else gitResetPart env target_name dirs []
  else if type = "svn" then
    let (dirs, evs, checkoutFailed) :=
      if try_only_local_operations = false then
        let (dirs, evs) :=
          if dirs target_name ≠ DirSt.absent then
            (upd dirs target_name DirSt.absent, [Act.rmLib target_name])
          else (dirs, ([] : List Act))
        let evs := evs ++ [Act.cloneCmd target_name Cmd.svnCheckout]
        if env.cmdOk target_name Cmd.svnCheckout = false then (dirs, evs, true)
        else (upd dirs target_name DirSt.nonempty, evs, false)
      else (dirs, ([] : List Act), false)
    if checkoutFailed then (dirs, evs, some CloneErr.cmdFail)
    else if revision ≠ none ∧ revision ≠ some "" then (dirs, evs, some CloneErr.svnRevision)
    else (dirs, evs, none)
  else (dirs, [], some CloneErr.unknownType)

/-! ## applyPatchFile (lines 408-425) -/

/-- `applyPatchFile(patch_name, dir_name, pnum)`: dry-run with text
arguments, on failure retry the dry-run with `--binary`, on double
failure re-run the dry-run verbosely and `exit(255)` (returned as
`false`: a `SystemExit` the orchestrator's bare `except` catches); on a
successful dry-run apply for real with the argument set that succeeded. -/
def applyPatchFile (env : Env) (patch_name : String) (dir_name : String)
    (dirs : String → DirSt) : (String → DirSt) × List Act × Bool :=
  let evs := [Act.patchDry dir_name patch_name PatchMode.text]
  if env.patchDryOk dir_name PatchMode.text then
    let evs := evs ++ [Act.patchReal dir_name patch_name PatchMode.text]
    (upd dirs dir_name (env.postDir dir_name), evs, env.patchRealOk dir_name PatchMode.text)
  else
    let evs := evs ++ [Act.patchDry dir_name patch_name PatchMode.binary]
    if env.patchDryOk dir_name PatchMode.binary then
      let evs := evs ++ [Act.patchReal dir_name patch_name PatchMode.binary]
      (upd dirs dir_name (env.postDir dir_name), evs, env.patchRealOk dir_name PatchMode.binary)
    else
      (dirs, evs ++ [Act.patchDry dir_name patch_name PatchMode.binary], false)

/-! ## The per-library source phase (main, lines 744-838) -/

/-- Outcome of a phase of the per-library `try` block: success, a caught
exception, or an in-loop schema error (a plain `return -1`). -/
inductive PhaseOut where
  | ok
  | exn
  | schemaHalt
deriving DecidableEq, Repr

/-- `extractFile(filename, target_dir)` as seen from the orchestrator: the
pre-existing target directory is removed first (lines 215-217), then on
success the extracted tree is renamed into place. -/
def extractStep (ok : Bool) (name : String) (fallback : Bool)
    (dirs : String → DirSt) : (String → DirSt) × List Act × Bool :=
  let dirs := upd dirs name DirSt.absent
  let evs := [Act.extract name fallback]
  if ok then (upd dirs name DirSt.nonempty, evs, true) else (dirs, evs, false)

/-- The `sourcefile` branch (lines 755-777): download into the archive
cache and copy into the workspace; on any failure try the fallback URL if
one is configured, otherwise remove the whole workspace directory and
re-raise. -/
def sourcefileAcquire (o : Opts) (env : Env) (name : String)
    (dirs : String → DirSt) : (String → DirSt) × List Act × PhaseOut :=
  let (dirs, evs, raised) :=
    if o.forceFallback then (dirs, ([] : List Act), true)
    else if env.downloadOk name then
      (upd dirs name DirSt.nonempty, [Act.download name false, Act.copyFile name], false)
    else (dirs, [Act.download name false], true)
  if raised = false then (dirs, evs, PhaseOut.ok)
  else if o.fallbackUrl ≠ "" then
    if env.fbDownloadOk name then
      (upd dirs name DirSt.nonempty, evs ++ [Act.download name true, Act.copyFile name],
        PhaseOut.ok)
    else (dirs, evs ++ [Act.download name true], PhaseOut.exn)
  else
    (upd dirs name DirSt.absent, evs ++ [Act.rmLib name], PhaseOut.exn)

/-- The `archive` branch (lines 778-796): download and extract; on any
failure try the fallback URL if configured, otherwise re-raise without
touching the workspace directory itself. -/
def archiveAcquire (o : Opts) (env : Env) (name : String)
    (dirs : String → DirSt) : (String → DirSt) × List Act × PhaseOut :=
  let (dirs, evs, raised) :=
    if o.forceFallback then (dirs, ([] : List Act), true)
    else if env.downloadOk name then
      let (dirs, evs2, exok) := extractStep (env.extractOk name) name false dirs
      (dirs, Act.download name false :: evs2, exok = false)
    else (dirs, [Act.download name false], true)
  if raised = false then (dirs, evs, PhaseOut.ok)
  else if o.fallbackUrl ≠ "" then
    if env.fbDownloadOk name then
      let (dirs, evs2, exok) := extractStep (env.fbExtractOk name) name true dirs
      (dirs, evs ++ Act.download name true :: evs2,
        if exok then PhaseOut.ok else PhaseOut.exn)
    else (dirs, evs ++ [Act.download name true], PhaseOut.exn)
  else (dirs, evs, PhaseOut.exn)

/-- The VCS fallback path (lines 818-834): fetch the snapshot archive from
the fallback location, extract it, then re-run `cloneRepository` with
`try_only_local_operations = True`; any failure propagates. -/
def vcsFallback (env : Env) (type name : String) (revision : Option String)
    (dirs : String → DirSt) (evs : List Act) : (String → DirSt) × List Act × PhaseOut :=
  if env.fbDownloadOk name then
    let (dirs, evs2, exok) := extractStep (env.fbExtractOk name) name true dirs
    if exok then
      match cloneRepository env type name revision true dirs with
      | (dirs, evs3, none) => (dirs, evs ++ Act.download name true :: evs2 ++ evs3, PhaseOut.ok)
      | (dirs, evs3, some _) => (dirs, evs ++ Act.download name true :: evs2 ++ evs3, PhaseOut.exn)
    else (dirs, evs ++ Act.download name true :: evs2, PhaseOut.exn)
  else (dirs, evs ++ [Act.download name true], PhaseOut.exn)

/-- The VCS branch (lines 798-834): clone/sync the repository (optionally
snapshotting it) and fall back to a pre-built snapshot on failure. -/
def vcsAcquire (o : Opts) (env : Env) (type name : String)
    (revision : Option String) (dirs : String → DirSt) :
    (String → DirSt) × List Act × PhaseOut :=
  if o.forceFallback then
    if o.fallbackUrl ≠ "" then vcsFallback env type name revision dirs []
    else (dirs, [], PhaseOut.exn)
  else
    match cloneRepository env type name revision false dirs with
    | (dirs1, evs1, none) =>
        if o.createRepoSnapshots then
          let evs1 := evs1 ++ [Act.snapshot name]
          if env.snapshotOk name then (dirs1, evs1, PhaseOut.ok)
          else if o.fallbackUrl ≠ "" then vcsFallback env type name revision dirs1 evs1
          else (dirs1, evs1, PhaseOut.exn)
        else (dirs1, evs1, PhaseOut.ok)
    | (dirs1, evs1, some _) =>
        if o.fallbackUrl ≠ "" then vcsFallback env type name revision dirs1 evs1
        else (dirs1, evs1, PhaseOut.exn)

/-- Source acquisition for one library (main, lines 744-838).  A `null`
source empties the workspace directory (`rmtree` then `mkdir`, lines
835-838); a source without `type` or `url` is an in-loop schema error
(`return -1`, lines 746-751). -/
def sourcePhase (o : Opts) (env : Env) (name : String) (source : Option RawSource)
    (dirs : String → DirSt) : (String → DirSt) × List Act × PhaseOut :=
  match source with
  | none => (upd dirs name DirSt.empty, [Act.rmLib name, Act.mkLib name], PhaseOut.ok)
  | some src =>
    match src.type? with
    | none => (dirs, [], PhaseOut.schemaHalt)
    | some src_type =>
      match src.url? with
      | none => (dirs, [], PhaseOut.schemaHalt)
      | some _ =>
        if src_type = "sourcefile" then sourcefileAcquire o env name dirs
        else if src_type = "archive" then archiveAcquire o env name dirs
        else vcsAcquire o env src_type name src.revision? dirs

/-- Post-processing for one library (main, lines 840-857).  A
`postprocess` without `type` or `file`, or with an unknown `type`, is an
in-loop schema error (`return -1`). -/
def postPhase (env : Env) (name : String) (post : Option RawPost)
    (dirs : String → DirSt) : (String → DirSt) × List Act × PhaseOut :=
  match post with
  | none => (dirs, [], PhaseOut.ok)
  | some p =>
    match p.type? with
    | none => (dirs, [], PhaseOut.schemaHalt)
    | some post_type =>
      match p.file? with
      | none => (dirs, [], PhaseOut.schemaHalt)
      | some post_file =>
        if post_type = "patch" then
          let (dirs, evs, okb) := applyPatchFile env post_file name dirs
          (dirs, evs, if okb then PhaseOut.ok else PhaseOut.exn)
        else if post_type = "script" then
          (upd dirs name (env.postDir name), [Act.script name post_file],
            if env.scriptOk name then PhaseOut.ok else PhaseOut.exn)
        else (dirs, [], PhaseOut.schemaHalt)

/-! ## The orchestrator loop (main, lines 700-889) -/

/-- How the loop stops early: an in-loop schema error (`return -1`) or
`exit(-1)` under `--break-on-first-error`. -/
inductive Halt where
  | schema
  | broke
deriving DecidableEq, Repr

/-- The cache-hit test (main, lines 719-727): some stored entry has the
same `name`, is structurally equal to the whole manifest entry, and the
workspace directory exists; never a hit under `--clean`. -/
def cachedStateOk (o : Opts) (st : St) (library : RawEntry) (name : String) : Prop :=
  o.optClean = false ∧ (∃ s ∈ st.sdata, s.name? = some name ∧ s = library) ∧
    st.dirs name ≠ DirSt.absent

instance (o : Opts) (st : St) (library : RawEntry) (name : String) :
    Decidable (cachedStateOk o st library name) := by
  unfold cachedStateOk; infer_instance

/-- Workspace preparation (main, lines 736-741): under `--clean` remove
the directory if it exists, then create it if missing. -/
def cleanStep (o : Opts) (dirs : String → DirSt) (name : String) :
    (String → DirSt) × List Act :=
  let dirs1 :=
    if o.optClean = true ∧ dirs name ≠ DirSt.absent then upd dirs name DirSt.absent
    else dirs
  let evs1 : List Act :=
    if o.optClean = true ∧ dirs name ≠ DirSt.absent then [Act.cleanRm name] else []
  if dirs1 name = DirSt.absent then (upd dirs1 name DirSt.empty, evs1 ++ [Act.makedirs name])
  else (dirs1, evs1)

/-- The body of the per-library `try` block (lines 743-857): source
acquisition, then post-processing. -/
def tryBody (o : Opts) (env : Env) (name : String) (library : RawEntry)
    (dirs : String → DirSt) : (String → DirSt) × List Act × PhaseOut :=
  match sourcePhase o env name library.source? dirs with
  | (dirs, evs, PhaseOut.ok) =>
      let (dirs2, evs2, p) := postPhase env name library.postprocess? dirs
      (dirs2, evs ++ evs2, p)
  | r => r

/-- Processing of one non-skipped, non-hit library after its stale cache
records were dropped: clean/create the workspace, run the `try` block,
and either record success in the cache and persist it (lines 859-863) or
handle the caught error (lines 864-875). -/
def processBody (o : Opts) (env : Env) (st1 : St) (library : RawEntry)
    (name : String) : St × Option Halt :=
  let dirs1 := (cleanStep o st1.dirs name).1
  let evs1 := (cleanStep o st1.dirs name).2
  match tryBody o env name library dirs1 with
  | (dirs, evs, PhaseOut.schemaHalt) =>
      ({ st1 with dirs := dirs, trace := st1.trace ++ (evs1 ++ evs).map Ev.work },
        some Halt.schema)
  | (dirs, evs, PhaseOut.exn) =>
      if o.breakOnFirstError then
        ({ st1 with dirs := dirs, trace := st1.trace ++ (evs1 ++ evs).map Ev.work },
          some Halt.broke)
      else
        ({ st1 with
            dirs := dirs, failed := st1.failed ++ [name],
            trace := st1.trace ++ (evs1 ++ evs).map Ev.work ++ [Ev.failRec name] }, none)
  | (dirs, evs, PhaseOut.ok) =>
      let sdata2 := st1.sdata ++ [library]
      ({ st1 with
          sdata := sdata2, dirs := dirs, filePersisted := some sdata2,
          trace := st1.trace ++ (evs1 ++ evs).map Ev.work ++
            [Ev.addCache library, Ev.persist sdata2] },
        none)

/-- Removal of every cached record carrying the current library's name
(main, line 733), done in memory only. -/
def invalidated (st : St) (name : String) : St :=
  { st with
      sdata := st.sdata.filter fun s => decide (s.name? ≠ some name),
      trace := st.trace ++ [Ev.removeCache name] }

/-- One iteration of the loop over `data` (main, lines 702-875): name
filtering, the cached-state comparison, invalidation of every same-name
record, and the processing body. -/
def processOne (o : Opts) (env : Env) (st : St) (library : RawEntry) : St × Option Halt :=
  let name := library.name?.getD ""
  if name ∈ o.skipLibs then (st, none)
  else if o.optNames ≠ [] ∧ ¬ name ∈ o.optNames then (st, none)
  else if cachedStateOk o st library name then (st, none)
  else processBody o env (invalidated st name) library name

/-- The whole loop, stopping early on an in-loop schema error or on
`--break-on-first-error`. -/
def processAll (o : Opts) (env : Env) : List RawEntry → St → St × Option Halt
  | [], st => (st, none)
  | library :: rest, st =>
      match processOne o env st library with
      | (st1, none) => processAll o env rest st1
      | (st1, some h) => (st1, some h)

/-- How the process terminates. -/
inductive FinalStatus where
  | configAbort
  | schemaAbort
  | brokeAbort
  | failSummary
  | finishedOk
  | utimeCrash
deriving DecidableEq, Repr

/-- The process exit status is non-zero in every case except a clean
finish (an uncaught exception exits the interpreter with status 1). -/
def exitNonzero : FinalStatus → Bool
  | FinalStatus.finishedOk => false
  | _ => true

/-- State at loop entry: `sdata` read from the state file when present
(main, lines 686-688). -/
def initSt (env : Env) : St :=
  { sdata := env.stateFile.getD [], failed := [], dirs := env.initDir,
    filePersisted := env.stateFile, trace := [] }

/-- After the loop (main, lines 877-889): report the aggregate failures
with exit `-1`, otherwise `os.utime` the state file — which raises an
uncaught `FileNotFoundError` when that file does not exist. -/
def finishRun : St × Option Halt → St × FinalStatus
  | (st, some Halt.schema) => (st, FinalStatus.schemaAbort)
  | (st, some Halt.broke) => (st, FinalStatus.brokeAbort)
  | (st, none) =>
      if st.failed ≠ [] then (st, FinalStatus.failSummary)
      else
        match st.filePersisted with
        | some _ => (st, FinalStatus.finishedOk)
        | none => (st, FinalStatus.utimeCrash)

/-- `main` from option handling onward (lines 633-889): the
force-fallback configuration check, the canonical and local `name` schema
checks, the merge, and the loop. -/
def bootstrapMain (o : Opts) (env : Env) (data : List RawEntry)
    (local_data : Option (List RawEntry)) : St × FinalStatus :=
  if o.forceFallback = true ∧ o.fallbackUrl = "" then (initSt env, FinalStatus.configAbort)
  else if data.any fun l => l.name?.isNone then (initSt env, FinalStatus.schemaAbort)
  else
    match local_data with
    | some ld =>
        if ld.any fun l => l.name?.isNone then (initSt env, FinalStatus.schemaAbort)
        else finishRun (processAll o env (mergeLibraries data ld) (initSt env))
    | none => finishRun (processAll o env data (initSt env))

/-! ## Lemmas about one loop iteration -/

theorem processOne_hit (o : Opts) (env : Env) (st : St) (library : RawEntry)
    (nm : String) (hname : library.name? = some nm)
    (hskip : nm ∉ o.skipLibs) (hsel : o.optNames = [] ∨ nm ∈ o.optNames)
    (hhit : cachedStateOk o st library nm) :
    processOne o env st library = (st, none) := by
  have hsel' : ¬ (o.optNames ≠ [] ∧ ¬ nm ∈ o.optNames) := by
    rcases hsel with h | h
    · simp [h]
    · simp [h]
  simp only [processOne, hname, Option.getD_some]
  rw [if_neg hskip, if_neg hsel', if_pos hhit]

theorem processOne_miss (o : Opts) (env : Env) (st : St) (library : RawEntry)
    (nm : String) (hname : library.name? = some nm)
    (hskip : nm ∉ o.skipLibs) (hsel : o.optNames = [] ∨ nm ∈ o.optNames)
    (hmiss : ¬ cachedStateOk o st library nm) :
    processOne o env st library = processBody o env (invalidated st nm) library nm := by
  have hsel' : ¬ (o.optNames ≠ [] ∧ ¬ nm ∈ o.optNames) := by
    rcases hsel with h | h
    · simp [h]
    · simp [h]
  simp only [processOne, hname, Option.getD_some]
  rw [if_neg hskip, if_neg hsel', if_neg hmiss]

theorem processBody_ok (o : Opts) (env : Env) (st1 : St) (library : RawEntry)
    (nm : String) (dirsF : String → DirSt) (evsT : List Act)
    (htb : tryBody o env nm library (cleanStep o st1.dirs nm).1 = (dirsF, evsT, PhaseOut.ok)) :
    processBody o env st1 library nm =
      ({ st1 with
          sdata := st1.sdata ++ [library], dirs := dirsF,
          filePersisted := some (st1.sdata ++ [library]),
          trace := st1.trace ++ ((cleanStep o st1.dirs nm).2 ++ evsT).map Ev.work ++
            [Ev.addCache library, Ev.persist (st1.sdata ++ [library])] }, none) := by
  simp only [processBody]
  rw [htb]

theorem processBody_exn_record (o : Opts) (env : Env) (st1 : St) (library : RawEntry)
    (nm : String) (dirsF : String → DirSt) (evsT : List Act)
    (hb : o.breakOnFirstError = false)
    (htb : tryBody o env nm library (cleanStep o st1.dirs nm).1 = (dirsF, evsT, PhaseOut.exn)) :
    processBody o env st1 library nm =
      ({ st1 with
          dirs := dirsF, failed := st1.failed ++ [nm],
          trace := st1.trace ++ ((cleanStep o st1.dirs nm).2 ++ evsT).map Ev.work ++
            [Ev.failRec nm] }, none) := by
  simp only [processBody]
  rw [htb]
  simp [hb]

theorem processBody_exn_broke (o : Opts) (env : Env) (st1 : St) (library : RawEntry)
    (nm : String) (dirsF : String → DirSt) (evsT : List Act)
    (hb : o.breakOnFirstError = true)
    (htb : tryBody o env nm library (cleanStep o st1.dirs nm).1 = (dirsF, evsT, PhaseOut.exn)) :
    processBody o env st1 library nm =
      ({ st1 with
          dirs := dirsF,
          trace := st1.trace ++ ((cleanStep o st1.dirs nm).2 ++ evsT).map Ev.work },
        some Halt.broke) := by
  simp only [processBody]
  rw [htb]
  simp [hb]

theorem processBody_schema (o : Opts) (env : Env) (st1 : St) (library : RawEntry)
    (nm : String) (dirsF : String → DirSt) (evsT : List Act)
    (htb : tryBody o env nm library (cleanStep o st1.dirs nm).1 =
      (dirsF, evsT, PhaseOut.schemaHalt)) :
    processBody o env st1 library nm =
      ({ st1 with
          dirs := dirsF,
          trace := st1.trace ++ ((cleanStep o st1.dirs nm).2 ++ evsT).map Ev.work },
        some Halt.schema) := by
  simp only [processBody]
  rw [htb]

theorem processBody_trace_extends (o : Opts) (env : Env) (st1 : St)
    (library : RawEntry) (nm : String) :
    ∃ evs, (processBody o env st1 library nm).1.trace = st1.trace ++ evs := by
  rcases htb : tryBody o env nm library (cleanStep o st1.dirs nm).1 with ⟨d, evsT, p⟩
  cases p
  · rw [processBody_ok o env st1 library nm d evsT htb]
    exact ⟨((cleanStep o st1.dirs nm).2 ++ evsT).map Ev.work ++
      [Ev.addCache library, Ev.persist (st1.sdata ++ [library])],
      (List.append_assoc _ _ _)⟩
  · rcases hb : o.breakOnFirstError with _ | _
    · rw [processBody_exn_record o env st1 library nm d evsT hb htb]
      exact ⟨((cleanStep o st1.dirs nm).2 ++ evsT).map Ev.work ++ [Ev.failRec nm],
        (List.append_assoc _ _ _)⟩
    · rw [processBody_exn_broke o env st1 library nm d evsT hb htb]
      exact ⟨((cleanStep o st1.dirs nm).2 ++ evsT).map Ev.work, rfl⟩
  · rw [processBody_schema o env st1 library nm d evsT htb]
    exact ⟨((cleanStep o st1.dirs nm).2 ++ evsT).map Ev.work, rfl⟩

/-! ## Claim C5: hash verification in downloadFile -/

/-- Claim C5: hash verification in `downloadFile` raises exactly when a
non-empty expected `sha1` string is present and the file's final digest
differs from it (string equality); a present-but-empty `sha1` never
triggers verification and so can never fail; and a cached file whose
digest mismatches a non-empty `sha1` forces a re-download before the
final check. -/
theorem downloadFile_hash_semantics (e : DlEnv) (sha1_hash : Option String)
    (force_download : Bool) :
    (sha1_hash = some "" →
      (downloadFile e sha1_hash force_download).out ≠ DlOut.hashError ∧
      ((downloadFile e sha1_hash force_download).downloaded = true ↔
        (e.fileExists = false ∨ force_download = true))) ∧
    (∀ h, sha1_hash = some h → h ≠ "" → e.fileExists = true → e.cachedHash ≠ h →
      (downloadFile e sha1_hash force_download).downloaded = true) ∧
    ((downloadFile e sha1_hash force_download).out ≠ DlOut.netError →
      ((downloadFile e sha1_hash force_download).out = DlOut.hashError ↔
        ∃ h, sha1_hash = some h ∧ h ≠ "" ∧
          (downloadFile e sha1_hash force_download).finalHash ≠ some h)) := by
  unfold downloadFile
  rcases e with ⟨fe, ch, dh, net⟩
  rcases sha1_hash with _ | h
  · cases fe <;> cases net <;> cases force_download <;> simp_all
  · cases fe <;> cases net <;> cases force_download <;>
      by_cases hh : h = "" <;> by_cases h1 : ch = h <;> by_cases h2 : dh = h <;> simp_all

/-- Witness for C5 at a concrete input: an existing cached file with a
stale digest and a non-empty expected hash is re-downloaded. -/
theorem downloadFile_hash_semantics_witness :
    (downloadFile ⟨true, "aa", "bb", true⟩ (some "cc") false).downloaded = true :=
  (downloadFile_hash_semantics ⟨true, "aa", "bb", true⟩ (some "cc") false).2.1
    "cc" rfl (by decide) rfl (by decide)

/-! ## Claim C6: dry-run discipline of applyPatchFile -/

/-- Claim C6: the patch tool is dry-run first with text-mode arguments,
retried in binary mode on failure; on a double dry-run failure the step
fails for that library without any real application, and on a dry-run
success the real application uses exactly the argument set whose dry-run
succeeded. -/
theorem applyPatchFile_dry_run_discipline (env : Env) (patch_name dir_name : String)
    (dirs : String → DirSt) :
    (env.patchDryOk dir_name PatchMode.text = true →
      (applyPatchFile env patch_name dir_name dirs).2.1 =
        [Act.patchDry dir_name patch_name PatchMode.text,
         Act.patchReal dir_name patch_name PatchMode.text] ∧
      (applyPatchFile env patch_name dir_name dirs).2.2 =
        env.patchRealOk dir_name PatchMode.text) ∧
    (env.patchDryOk dir_name PatchMode.text = false →
     env.patchDryOk dir_name PatchMode.binary = true →
      (applyPatchFile env patch_name dir_name dirs).2.1 =
        [Act.patchDry dir_name patch_name PatchMode.text,
         Act.patchDry dir_name patch_name PatchMode.binary,
         Act.patchReal dir_name patch_name PatchMode.binary] ∧
      (applyPatchFile env patch_name dir_name dirs).2.2 =
        env.patchRealOk dir_name PatchMode.binary) ∧
    (env.patchDryOk dir_name PatchMode.text = false →
     env.patchDryOk dir_name PatchMode.binary = false →
      (applyPatchFile env patch_name dir_name dirs).2.2 = false ∧
      (∀ f m, Act.patchReal dir_name f m ∉ (applyPatchFile env patch_name dir_name dirs).2.1) ∧
      (∀ p : RawPost, p.type? = some "patch" → p.file? = some patch_name →
        (postPhase env dir_name (some p) dirs).2.2 = PhaseOut.exn)) := by
  refine ⟨fun h1 => ?_, fun h1 h2 => ?_, fun h1 h2 => ?_⟩
  · simp [applyPatchFile, h1]
  · simp [applyPatchFile, h1, h2]
  · refine ⟨by simp [applyPatchFile, h1, h2], ?_, ?_⟩
    · intro f m
      simp [applyPatchFile, h1, h2]
    · intro p hpt hpf
      rcases p with ⟨t, f, n⟩
      simp at hpt hpf
      simp [postPhase, hpt, hpf, applyPatchFile, h1, h2]

/-- Witness for C6 at a concrete input: with a failing text dry-run and a
succeeding binary dry-run, the real application runs in binary mode. -/
theorem applyPatchFile_dry_run_discipline_witness :
    (applyPatchFile
      { downloadOk := fun _ => true, fbDownloadOk := fun _ => true,
        extractOk := fun _ => true, fbExtractOk := fun _ => true,
        cmdOk := fun _ _ => true, repoMarker := fun _ _ => true,
        snapshotOk := fun _ => true,
        patchDryOk := fun _ m => m = PatchMode.binary,
        patchRealOk := fun _ _ => true, scriptOk := fun _ => true,
        postDir := fun _ => DirSt.nonempty, initDir := fun _ => DirSt.absent,
        stateFile := none }
      "p.patch" "lib" (fun _ => DirSt.empty)).2.1 =
      [Act.patchDry "lib" "p.patch" PatchMode.text,
       Act.patchDry "lib" "p.patch" PatchMode.binary,
       Act.patchReal "lib" "p.patch" PatchMode.binary] :=
  ((applyPatchFile_dry_run_discipline _ "p.patch" "lib" (fun _ => DirSt.empty)).2.1
    (by decide) (by decide)).1

/-! ## Claim C2: local manifest overlay -/

theorem mergeStep_key (data : List RawEntry) (l : RawEntry) (ls : List RawEntry)
    (h1 : ∀ x ∈ ls, l.name? ≠ x.name?) :
    mergeSpec (mergeStep data l) ls = mergeSpec data (l :: ls) := by
  have hnofind : (ls.find? fun x => decide (x.name? = l.name?)) = none :=
    List.find?_eq_none.mpr fun x hx => by
      simp only [decide_eq_true_eq]
      exact fun h => h1 x hx h.symm
  by_cases hA : data.any (fun e => decide (e.name? = l.name?)) = true
  · have hex : ∃ e ∈ data, e.name? = l.name? := by simpa using hA
    unfold mergeStep mergeSpec
    rw [if_pos hA, List.map_map]
    have hfun : ∀ e : RawEntry,
        ((ls.find? fun x =>
            decide (x.name? = (if e.name? = l.name? then l else e).name?)).getD
          (if e.name? = l.name? then l else e)) =
        ((l :: ls).find? fun x => decide (x.name? = e.name?)).getD e := by
      intro e
      by_cases he : e.name? = l.name?
      · rw [if_pos he, he, hnofind,
          List.find?_cons_of_pos _ (by simp [he.symm])]
        rfl
      · rw [if_neg he, List.find?_cons_of_neg _ (by simpa using fun h => he h.symm)]
    have hnames : ∀ e : RawEntry,
        (if e.name? = l.name? then l else e).name? = e.name? := by
      intro e; by_cases he : e.name? = l.name? <;> simp [he]
    have hmap :
        (fun e : RawEntry =>
          ((ls.find? fun x => decide (x.name? = e.name?)).getD e)) ∘
            (fun e : RawEntry => if e.name? = l.name? then l else e) =
        fun e : RawEntry => ((l :: ls).find? fun x => decide (x.name? = e.name?)).getD e :=
      funext fun e => hfun e
    rw [hmap]
    have hfil : (fun x : RawEntry =>
        decide (¬ ∃ e ∈ data.map (fun a : RawEntry => if a.name? = l.name? then l else a),
          e.name? = x.name?)) =
        fun x : RawEntry => decide (¬ ∃ e ∈ data, e.name? = x.name?) := by
      funext x
      rw [decide_eq_decide]
      constructor
      · intro hne hex2
        exact hne (by
          rcases hex2 with ⟨e, he, hn⟩
          exact ⟨_, List.mem_map_of_mem _ he, by rw [hnames e]; exact hn⟩)
      · intro hne hex2
        exact hne (by
          rcases hex2 with ⟨e, he, hn⟩
          rcases List.mem_map.mp he with ⟨a, ha, rfl⟩
          exact ⟨a, ha, by rw [hnames a] at hn; exact hn⟩)
    rw [hfil, List.filter_cons]
    have : (decide (¬ ∃ e ∈ data, e.name? = l.name?)) = false := by
      simpa using hex
    rw [this]
    simp
  · have hnone : ∀ e ∈ data, ¬ (e.name? = l.name?) := by
      intro e he
      have := List.any_eq_false.mp (Bool.eq_false_iff.mpr hA) e he
      simpa using this
    unfold mergeStep mergeSpec
    rw [if_neg hA, List.map_append]
    have hl : ([l].map fun e : RawEntry =>
        ((ls.find? fun x => decide (x.name? = e.name?)).getD e)) = [l] := by
      simp [hnofind]
    rw [hl]
    have hmap : (data.map fun e : RawEntry =>
        ((ls.find? fun x => decide (x.name? = e.name?)).getD e)) =
        data.map fun e : RawEntry =>
          (((l :: ls).find? fun x => decide (x.name? = e.name?)).getD e) := by
      refine List.map_congr_left fun e he => ?_
      rw [List.find?_cons_of_neg _ (by simpa using fun h => hnone e he h.symm)]
    rw [hmap]
    have hfil : (ls.filter fun x : RawEntry =>
        decide (¬ ∃ e ∈ data ++ [l], e.name? = x.name?)) =
        ls.filter fun x : RawEntry => decide (¬ ∃ e ∈ data, e.name? = x.name?) := by
      refine List.filter_congr fun x hx => ?_
      rw [decide_eq_decide]
      constructor
      · intro hne hex2
        exact hne (by
          rcases hex2 with ⟨e, he, hn⟩
          exact ⟨e, List.mem_append_left _ he, hn⟩)
      · intro hne hex2
        rcases hex2 with ⟨e, he, hn⟩
        rcases List.mem_append.mp he with he' | he'
        · exact hne ⟨e, he', hn⟩
        · rcases List.mem_singleton.mp he' with rfl
          exact h1 x hx hn
    rw [hfil, List.filter_cons]
    have : (decide (¬ ∃ e ∈ data, e.name? = l.name?)) = true := by
      simp only [decide_eq_true_eq]
      rintro ⟨e, he, hn⟩
      exact hnone e he hn
    rw [this]
    simp

/-- Claim C2: merging a local manifest over the canonical one replaces
each canonical entry whose `name` matches a local entry by that local
entry in its original position, keeps unreplaced canonical entries in
canonical order, and appends local-only entries at the end in local
order (manifest names are unique keys, so the local list has pairwise
distinct names). -/
theorem mergeLibraries_eq_mergeSpec (data local_data : List RawEntry)
    (hp : local_data.Pairwise fun a b => a.name? ≠ b.name?) :
    mergeLibraries data local_data = mergeSpec data local_data := by
  induction local_data generalizing data with
  | nil => simp [mergeLibraries, mergeSpec]
  | cons l ls ih =>
      rw [List.pairwise_cons] at hp
      have hstep : mergeLibraries data (l :: ls) = mergeLibraries (mergeStep data l) ls := rfl
      rw [hstep, ih (mergeStep data l) hp.2, mergeStep_key data l ls hp.1]

/-- The canonical `[A, B]` overlay `[B', C]` example entries. -/
def entryA : RawEntry := { name? := some "A", source? := none, postprocess? := none }

def entryB : RawEntry := { name? := some "B", source? := none, postprocess? := none }

def entryB2 : RawEntry :=
  { name? := some "B", source? := none,
    postprocess? := some { type? := some "patch", file? := some "b.patch", pnum? := none } }

def entryC : RawEntry := { name? := some "C", source? := none, postprocess? := none }

/-- Witness for C2 at the spec's concrete instance: canonical `[A, B]`
merged with local `[B', C]` yields `[A, B', C]`. -/
theorem mergeLibraries_eq_mergeSpec_witness :
    mergeLibraries [entryA, entryB] [entryB2, entryC] = [entryA, entryB2, entryC] := by
  rw [mergeLibraries_eq_mergeSpec [entryA, entryB] [entryB2, entryC] (by decide)]
  decide

/-! ## Concrete options, environments and entries for witnesses -/

/-- Default options: no filters, no flags, no fallback URL. -/
def optsBase : Opts :=
  { optNames := [], skipLibs := [], optClean := false, optCleanArchives := false,
    breakOnFirstError := false, fallbackUrl := "", forceFallback := false,
    createRepoSnapshots := false }

/-- An environment in which every external operation succeeds, every
workspace directory initially exists and is empty, post-processing tools
leave files behind, and no state file exists. -/
def envAllOk : Env :=
  { downloadOk := fun _ => true, fbDownloadOk := fun _ => true,
    extractOk := fun _ => true, fbExtractOk := fun _ => true,
    cmdOk := fun _ _ => true, repoMarker := fun _ _ => false,
    snapshotOk := fun _ => true, patchDryOk := fun _ _ => true,
    patchRealOk := fun _ _ => true, scriptOk := fun _ => true,
    postDir := fun _ => DirSt.nonempty, initDir := fun _ => DirSt.empty,
    stateFile := none }

/-- A source-less, post-process-less library named `x`. -/
def libX : RawEntry := { name? := some "x", source? := none, postprocess? := none }

/-- A state whose cache holds exactly `libX` and whose directories exist. -/
def stHitX : St :=
  { sdata := [libX], failed := [], dirs := fun _ => DirSt.empty,
    filePersisted := some [libX], trace := [] }

/-! ## Claim C1: the cache-hit decision -/

/-- Claim C1: with clean mode off, a manifest entry that reaches the loop
body is skipped with no acquisition or post-processing work at all
precisely when the loaded cache has an entry with the same `name` that is
structurally equal to the whole manifest entry and the workspace
directory exists; otherwise every same-name record is removed from the
in-memory cache and the library is reprocessed. -/
theorem cache_hit_skip_iff (o : Opts) (env : Env) (st : St) (library : RawEntry)
    (nm : String) (hname : library.name? = some nm) (hclean : o.optClean = false)
    (hskip : nm ∉ o.skipLibs) (hsel : o.optNames = [] ∨ nm ∈ o.optNames) :
    (processOne o env st library = (st, none) ↔
      ((∃ s ∈ st.sdata, s.name? = some nm ∧ s = library) ∧ st.dirs nm ≠ DirSt.absent)) ∧
    (¬ ((∃ s ∈ st.sdata, s.name? = some nm ∧ s = library) ∧ st.dirs nm ≠ DirSt.absent) →
      processOne o env st library = processBody o env (invalidated st nm) library nm) := by
  have hhit_iff : cachedStateOk o st library nm ↔
      ((∃ s ∈ st.sdata, s.name? = some nm ∧ s = library) ∧ st.dirs nm ≠ DirSt.absent) := by
    unfold cachedStateOk
    simp [hclean]
  constructor
  · constructor
    · intro heq
      by_contra hmiss
      rw [← hhit_iff] at hmiss
      have h2 := processOne_miss o env st library nm hname hskip hsel hmiss
      rw [heq] at h2
      rcases processBody_trace_extends o env (invalidated st nm) library nm with ⟨evs, htr⟩
      rw [← h2] at htr
      have hinv : (invalidated st nm).trace = st.trace ++ [Ev.removeCache nm] := rfl
      rw [hinv] at htr
      have hlen : st.trace.length = st.trace.length + 1 + evs.length := by
        calc st.trace.length = ((st.trace ++ [Ev.removeCache nm]) ++ evs).length := by
              rw [← htr]
          _ = st.trace.length + 1 + evs.length := by simp; omega
      omega
    · intro hhit
      exact processOne_hit o env st library nm hname hskip hsel (hhit_iff.mpr hhit)
  · intro hmiss
    exact processOne_miss o env st library nm hname hskip hsel
      fun h => hmiss (hhit_iff.mp h)

/-- Witness for C1 at a concrete input: a cached, unchanged entry whose
directory exists is skipped without any work. -/
theorem cache_hit_skip_iff_witness :
    processOne optsBase envAllOk stHitX libX = (stHitX, none) :=
  (cache_hit_skip_iff optsBase envAllOk stHitX libX "x" rfl rfl (by decide)
    (Or.inl rfl)).1.mpr (by decide)

/-! ## Claim C3: the cache record lifecycle -/

/-- Claim C3 (amended): for a reprocessed library the first emitted event
removes every same-name record from the in-memory cache; a cache record
is added exactly when the whole try block succeeded, and in that case it
is immediately followed by the one and only persist of the run's cache
for that library; on failure nothing is persisted — in particular the
in-memory removal is NOT written out, so the state file keeps its
previous contents (including any old same-name record) until the next
successful library write. -/
theorem cache_record_lifecycle (o : Opts) (env : Env) (st : St) (library : RawEntry)
    (nm : String) (hname : library.name? = some nm)
    (hskip : nm ∉ o.skipLibs) (hsel : o.optNames = [] ∨ nm ∈ o.optNames)
    (hmiss : ¬ cachedStateOk o st library nm) :
    ∃ evs,
      (processOne o env st library).1.trace = st.trace ++ Ev.removeCache nm :: evs ∧
      ((Ev.addCache library ∈ evs) ↔
        ((processOne o env st library).2 = none ∧
          (processOne o env st library).1.failed = st.failed)) ∧
      ((Ev.addCache library ∈ evs) →
        ∃ pre, evs = pre ++ [Ev.addCache library,
            Ev.persist ((st.sdata.filter fun s => decide (s.name? ≠ some nm)) ++ [library])] ∧
          (∀ L, Ev.persist L ∉ pre) ∧ Ev.addCache library ∉ pre ∧
          (processOne o env st library).1.filePersisted =
            some ((st.sdata.filter fun s => decide (s.name? ≠ some nm)) ++ [library])) ∧
      ((Ev.addCache library ∉ evs) →
        (∀ L, Ev.persist L ∉ evs) ∧
        (processOne o env st library).1.filePersisted = st.filePersisted) := by
  rw [processOne_miss o env st library nm hname hskip hsel hmiss]
  rcases htb : tryBody o env nm library
      (cleanStep o (invalidated st nm).dirs nm).1 with ⟨d, evsT, p⟩
  have hinvtr : (invalidated st nm).trace = st.trace ++ [Ev.removeCache nm] := rfl
  have hinvsd : (invalidated st nm).sdata =
      st.sdata.filter fun s => decide (s.name? ≠ some nm) := rfl
  have hinvfl : (invalidated st nm).failed = st.failed := rfl
  have hinvfp : (invalidated st nm).filePersisted = st.filePersisted := rfl
  cases p
  case ok =>
    rw [processBody_ok o env (invalidated st nm) library nm d evsT htb]
    refine ⟨((cleanStep o (invalidated st nm).dirs nm).2 ++ evsT).map Ev.work ++
      [Ev.addCache library,
       Ev.persist ((invalidated st nm).sdata ++ [library])], ?_, ?_, ?_, ?_⟩
    · rw [hinvtr]; simp
    · constructor
      · intro _; exact ⟨rfl, hinvfl⟩
      · intro _; simp
    · intro _
      refine ⟨((cleanStep o (invalidated st nm).dirs nm).2 ++ evsT).map Ev.work,
        by rw [hinvsd], ?_, ?_, by rw [hinvsd]⟩
      · intro L hL
        simp only [List.mem_map] at hL
        rcases hL with ⟨a, _, ha⟩
        exact Ev.noConfusion ha
      · intro hL
        simp only [List.mem_map] at hL
        rcases hL with ⟨a, _, ha⟩
        exact Ev.noConfusion ha
    · intro habs
      exact absurd (by simp) habs
  case exn =>
    rcases hb : o.breakOnFirstError with _ | _
    · rw [processBody_exn_record o env (invalidated st nm) library nm d evsT hb htb]
      refine ⟨((cleanStep o (invalidated st nm).dirs nm).2 ++ evsT).map Ev.work ++
        [Ev.failRec nm], ?_, ?_, ?_, ?_⟩
      · rw [hinvtr]; simp
      · constructor
        · intro hmem
          simp only [List.mem_append, List.mem_map, List.mem_singleton] at hmem
          rcases hmem with ⟨a, _, ha⟩ | ha <;> exact absurd ha (by simp)
        · rintro ⟨-, hfl⟩
          rw [hinvfl] at hfl
          exact absurd hfl (by simp)
      · intro hmem
        exfalso
        simp only [List.mem_append, List.mem_map, List.mem_singleton] at hmem
        rcases hmem with ⟨a, _, ha⟩ | ha <;> exact absurd ha (by simp)
      · intro _
        refine ⟨?_, hinvfp⟩
        intro L hL
        simp only [List.mem_append, List.mem_map, List.mem_singleton] at hL
        rcases hL with ⟨a, _, ha⟩ | ha <;> exact absurd ha (by simp)
    · rw [processBody_exn_broke o env (invalidated st nm) library nm d evsT hb htb]
      refine ⟨((cleanStep o (invalidated st nm).dirs nm).2 ++ evsT).map Ev.work,
        ?_, ?_, ?_, ?_⟩
      · rw [hinvtr]; simp
      · constructor
        · intro hmem
          simp only [List.mem_map] at hmem
          rcases hmem with ⟨a, _, ha⟩
          exact absurd ha (by simp)
        · rintro ⟨h, -⟩
          exact absurd h (by simp)
      · intro hmem
        exfalso
        simp only [List.mem_map] at hmem
        rcases hmem with ⟨a, _, ha⟩
        exact absurd ha (by simp)
      · intro _
        refine ⟨?_, hinvfp⟩
        intro L hL
        simp only [List.mem_map] at hL
        rcases hL with ⟨a, _, ha⟩
        exact absurd ha (by simp)
  case schemaHalt =>
    rw [processBody_schema o env (invalidated st nm) library nm d evsT htb]
    refine ⟨((cleanStep o (invalidated st nm).dirs nm).2 ++ evsT).map Ev.work,
      ?_, ?_, ?_, ?_⟩
    · rw [hinvtr]; simp
    · constructor
      · intro hmem
        simp only [List.mem_map] at hmem
        rcases hmem with ⟨a, _, ha⟩
        exact absurd ha (by simp)
      · rintro ⟨h, -⟩
        exact absurd h (by simp)
    · intro hmem
      exfalso
      simp only [List.mem_map] at hmem
      rcases hmem with ⟨a, _, ha⟩
      exact absurd ha (by simp)
    · intro _
      refine ⟨?_, hinvfp⟩
      intro L hL
      simp only [List.mem_map] at hL
      rcases hL with ⟨a, _, ha⟩
      exact absurd ha (by simp)

/-- A `sourcefile` library named `x`. -/
def libXsrc : RawEntry :=
  { name? := some "x",
    source? := some { type? := some "sourcefile", url? := some "http://h/x.zip",
                      revision? := none, sha1? := none, userAgent? := none },
    postprocess? := none }

/-- An environment whose state file already records `libXsrc` as a
success but whose workspace directories are all missing. -/
def envCrash : Env :=
  { envAllOk with stateFile := some [libXsrc], initDir := fun _ => DirSt.absent }

/-- The world as a crash during the re-acquisition of `x` leaves it: the
state file untouched (no persist had happened yet) and the workspace
directory created by the crashed run. -/
def stResume : St :=
  { sdata := [libXsrc], failed := [],
    dirs := fun n => if n = "x" then DirSt.empty else DirSt.absent,
    filePersisted := some [libXsrc], trace := [] }

/-- Witness for C3 at a concrete input: a successful re-acquisition emits
the removal first and ends with the record plus its persist. -/
theorem cache_record_lifecycle_witness :
    ∃ evs,
      (processOne optsBase envCrash (initSt envCrash) libXsrc).1.trace =
        (initSt envCrash).trace ++ Ev.removeCache "x" :: evs ∧
      Ev.addCache libXsrc ∈ evs := by
  rcases cache_record_lifecycle optsBase envCrash (initSt envCrash) libXsrc "x" rfl
    (by decide) (Or.inl rfl) (by decide) with ⟨evs, h1, h2, -, -⟩
  exact ⟨evs, h1, h2.mpr ⟨by decide, by decide⟩⟩

/-- Counterexample for C3 as stated: the removal of a stale same-name
record is in-memory only.  Here the state file records `x` as a success,
its directory is missing, and the run crashes right after the directory
is created (the first two events contain no persist): the file still
holds the old `x` record, and the resumed run — directory now present —
takes a cache hit and skips the incomplete library. -/
theorem cache_record_lifecycle_cex :
    (processOne optsBase envCrash (initSt envCrash) libXsrc).1.trace.take 2 =
      [Ev.removeCache "x", Ev.work (Act.makedirs "x")] ∧
    (initSt envCrash).filePersisted = some [libXsrc] ∧
    libXsrc.name? = some "x" ∧
    processOne optsBase envCrash stResume libXsrc = (stResume, none) :=
  ⟨by decide, rfl, rfl, rfl⟩

/-! ## Claim C4: per-library error propagation and the exit status -/

/-- Claim C4 (amended): a failing library is caught at the loop boundary:
without break-on-first-error its name is appended to the aggregate
failure list and the loop moves on to the remaining libraries; with the
flag the loop stops immediately with a non-zero exit and later libraries
are never reached.  A halt-free run exits zero exactly when the failure
list is empty AND the state cache file exists at the end — when no
library was ever persisted and no state file pre-existed, the final
`os.utime` call crashes and the exit is non-zero despite an empty
failure list. -/
theorem failure_aggregation (o : Opts) (env : Env) (st : St) (library : RawEntry)
    (nm : String) (rest : List RawEntry) (hname : library.name? = some nm)
    (hskip : nm ∉ o.skipLibs) (hsel : o.optNames = [] ∨ nm ∈ o.optNames)
    (hmiss : ¬ cachedStateOk o st library nm)
    (hfail : (tryBody o env nm library
        (cleanStep o (invalidated st nm).dirs nm).1).2.2 = PhaseOut.exn) :
    (o.breakOnFirstError = false →
      (processOne o env st library).2 = none ∧
      (processOne o env st library).1.failed = st.failed ++ [nm] ∧
      processAll o env (library :: rest) st =
        processAll o env rest (processOne o env st library).1) ∧
    (o.breakOnFirstError = true →
      processAll o env (library :: rest) st =
        ((processOne o env st library).1, some Halt.broke) ∧
      exitNonzero (finishRun ((processOne o env st library).1, some Halt.broke)).2 = true) ∧
    (∀ stF : St,
      exitNonzero (finishRun (stF, none)).2 = false ↔
        (stF.failed = [] ∧ stF.filePersisted ≠ none)) := by
  have hmain := processOne_miss o env st library nm hname hskip hsel hmiss
  rcases htb : tryBody o env nm library
      (cleanStep o (invalidated st nm).dirs nm).1 with ⟨d, evsT, p⟩
  rw [htb] at hfail
  simp only at hfail
  subst hfail
  refine ⟨fun hb => ?_, fun hb => ?_, fun stF => ?_⟩
  · have hbody := processBody_exn_record o env (invalidated st nm) library nm d evsT hb htb
    rw [hmain, hbody]
    refine ⟨rfl, rfl, ?_⟩
    show processAll o env (library :: rest) st = _
    simp only [processAll]
    rw [hmain, hbody]
  · have hbody := processBody_exn_broke o env (invalidated st nm) library nm d evsT hb htb
    constructor
    · show processAll o env (library :: rest) st = _
      simp only [processAll]
      rw [hmain, hbody]
    · rfl
  · unfold finishRun
    by_cases hf : stF.failed = []
    · rcases hfp : stF.filePersisted with _ | L
      · simp [hf, hfp, exitNonzero]
      · simp [hf, hfp, exitNonzero]
    · simp [hf, exitNonzero]

/-- An environment in which every download fails; no fallback URLs are
configured in `optsBase`. -/
def envDownloadFail : Env := { envAllOk with downloadOk := fun _ => false }

/-- Options with `--break-on-first-error`. -/
def optsBreak : Opts := { optsBase with breakOnFirstError := true }

/-- A second plain library, named `y`. -/
def libY : RawEntry := { name? := some "y", source? := none, postprocess? := none }

/-- Witness for C4 at a concrete input: with the break flag set and a
failing first download, the loop halts at once and the second library is
never reached. -/
theorem failure_aggregation_witness :
    processAll optsBreak envDownloadFail [libXsrc, libY] (initSt envDownloadFail) =
      ((processOne optsBreak envDownloadFail (initSt envDownloadFail) libXsrc).1,
        some Halt.broke) :=
  ((failure_aggregation optsBreak envDownloadFail (initSt envDownloadFail) libXsrc "x"
    [libY] rfl (by decide) (Or.inl rfl) (by decide) (by decide)).2.1 rfl).1

/-- Counterexample for C4 as stated: a run over an empty manifest with no
pre-existing state file ends with an empty failure list, yet exits
non-zero — the final `os.utime(state_filename)` raises an uncaught
`FileNotFoundError`. -/
theorem failure_aggregation_cex :
    bootstrapMain optsBase envAllOk [] none = (initSt envAllOk, FinalStatus.utimeCrash) ∧
    (initSt envAllOk).failed = [] ∧
    exitNonzero FinalStatus.utimeCrash = true :=
  ⟨rfl, rfl, rfl⟩

/-! ## Claim C7: schema violations -/

/-- Claim C7 (amended): a missing `name` aborts before any library is
processed, but the `source.type`/`source.url` and
`postprocess.type`/`postprocess.file` checks are made only when the
violating entry itself is reached: the run then stops fatally with a
non-zero status (no later entry is attempted), while libraries earlier
in the manifest have already been processed and persisted; moreover a
`postprocess` violation aborts only after the entry's own acquisition
phase has run. -/
theorem schema_abort_semantics (o : Opts) (env : Env) :
    (∀ data local_data, o.forceFallback = false →
      (data.any fun l => l.name?.isNone) = true →
      bootstrapMain o env data local_data = (initSt env, FinalStatus.schemaAbort)) ∧
    (∀ st library nm rest, library.name? = some nm →
      nm ∉ o.skipLibs → (o.optNames = [] ∨ nm ∈ o.optNames) →
      ¬ cachedStateOk o st library nm →
      ∀ src, library.source? = some src → (src.type? = none ∨ src.url? = none) →
      (processOne o env st library).2 = some Halt.schema ∧
      processAll o env (library :: rest) st =
        ((processOne o env st library).1, some Halt.schema) ∧
      exitNonzero (finishRun ((processOne o env st library).1, some Halt.schema)).2 = true) ∧
    (∀ st library nm, library.name? = some nm →
      nm ∉ o.skipLibs → (o.optNames = [] ∨ nm ∈ o.optNames) →
      ¬ cachedStateOk o st library nm →
      library.source? = none →
      ∀ p, library.postprocess? = some p → (p.type? = none ∨ p.file? = none) →
      (processOne o env st library).2 = some Halt.schema ∧
      Ev.work (Act.mkLib nm) ∈ (processOne o env st library).1.trace) := by
  refine ⟨fun data local_data hff hbad => ?_, ?_, ?_⟩
  · unfold bootstrapMain
    rw [if_neg (by simp [hff]), if_pos hbad]
  · intro st library nm rest hname hskip hsel hmiss src hsrc hviol
    have hsp : sourcePhase o env nm library.source?
        (cleanStep o (invalidated st nm).dirs nm).1 =
        ((cleanStep o (invalidated st nm).dirs nm).1, [], PhaseOut.schemaHalt) := by
      rw [hsrc]
      rcases src with ⟨t, u, r, s, ua⟩
      rcases hviol with h | h
      · simp only at h
        subst h
        rfl
      · simp only at h
        subst h
        rcases t with _ | t
        · rfl
        · rfl
    have htb : tryBody o env nm library (cleanStep o (invalidated st nm).dirs nm).1 =
        ((cleanStep o (invalidated st nm).dirs nm).1, [], PhaseOut.schemaHalt) := by
      unfold tryBody
      rw [hsp]
    have hmain := processOne_miss o env st library nm hname hskip hsel hmiss
    have hbody := processBody_schema o env (invalidated st nm) library nm _ _ htb
    refine ⟨by rw [hmain, hbody], ?_, rfl⟩
    show processAll o env (library :: rest) st = _
    simp only [processAll]
    rw [hmain, hbody]
  · intro st library nm hname hskip hsel hmiss hsrc p hpost hviol
    have hpp : postPhase env nm library.postprocess?
        (upd (cleanStep o (invalidated st nm).dirs nm).1 nm DirSt.empty) =
        (upd (cleanStep o (invalidated st nm).dirs nm).1 nm DirSt.empty, [],
          PhaseOut.schemaHalt) := by
      rw [hpost]
      rcases p with ⟨t, f, n⟩
      rcases hviol with h | h
      · simp only at h
        subst h
        rfl
      · simp only at h
        subst h
        rcases t with _ | t
        · rfl
        · rfl
    have htb : tryBody o env nm library (cleanStep o (invalidated st nm).dirs nm).1 =
        (upd (cleanStep o (invalidated st nm).dirs nm).1 nm DirSt.empty,
          [Act.rmLib nm, Act.mkLib nm], PhaseOut.schemaHalt) := by
      unfold tryBody
      rw [hsrc]
      show (match sourcePhase o env nm none (cleanStep o (invalidated st nm).dirs nm).1 with
        | (dirs, evs, PhaseOut.ok) =>
            match postPhase env nm library.postprocess? dirs with
            | (dirs2, evs2, p) => (dirs2, evs ++ evs2, p)
        | r => r) = _
      rw [show sourcePhase o env nm none (cleanStep o (invalidated st nm).dirs nm).1 =
        (upd (cleanStep o (invalidated st nm).dirs nm).1 nm DirSt.empty,
          [Act.rmLib nm, Act.mkLib nm], PhaseOut.ok) from rfl]
      dsimp only
      rw [hpp]
      simp
    have hmain := processOne_miss o env st library nm hname hskip hsel hmiss
    have hbody := processBody_schema o env (invalidated st nm) library nm _ _ htb
    refine ⟨by rw [hmain, hbody], ?_⟩
    rw [hmain, hbody]
    simp

/-- A well-formed library named `a` with no source and no post-processing. -/
def libGood : RawEntry := { name? := some "a", source? := none, postprocess? := none }

/-- A library whose `source` object lacks `url` — a schema violation. -/
def libBadSrc : RawEntry :=
  { name? := some "b",
    source? := some { type? := some "sourcefile", url? := none, revision? := none,
                      sha1? := none, userAgent? := none },
    postprocess? := none }

/-- Witness for C7 at a concrete input: the entry with a `source` lacking
`url` makes the loop halt with the in-loop schema error. -/
theorem schema_abort_semantics_witness :
    (processOne optsBase envAllOk (initSt envAllOk) libBadSrc).2 = some Halt.schema :=
  ((schema_abort_semantics optsBase envAllOk).2.1 (initSt envAllOk) libBadSrc "b" []
    rfl (by decide) (Or.inl rfl) (by decide) _ rfl (Or.inr rfl)).1

/-- Counterexample for C7 as stated: in the manifest `[a, b]` where only
`b` violates the schema (its `source` has no `url`), the run does abort
with the schema status — but library `a` has already been fully acquired,
recorded and persisted before the abort, so processing did happen. -/
theorem schema_abort_semantics_cex :
    (bootstrapMain optsBase envAllOk [libGood, libBadSrc] none).2 =
      FinalStatus.schemaAbort ∧
    Ev.addCache libGood ∈ (bootstrapMain optsBase envAllOk [libGood, libBadSrc] none).1.trace ∧
    Ev.persist [libGood] ∈ (bootstrapMain optsBase envAllOk [libGood, libBadSrc] none).1.trace :=
  ⟨rfl, by decide, by decide⟩

/-! ## Claim C8: SVN with a revision -/

/-- Claim C8 (amended): an SVN source with a non-empty `revision` makes
`cloneRepository` raise (after the checkout itself has run — SVN only
ever checks out, never updates to a revision), and the orchestrator
catches this like any other per-library error: the library lands in the
failure list and the loop continues with the remaining libraries — the
run is not aborted (unless break-on-first-error is set). -/
theorem svn_revision_per_library_failure (env : Env) (nm : String) (rev : Option String) :
    (∀ (tl : Bool) (dirs : String → DirSt), rev ≠ none → rev ≠ some "" →
      (tl = true ∨ env.cmdOk nm Cmd.svnCheckout = true) →
      (cloneRepository env "svn" nm rev tl dirs).2.2 = some CloneErr.svnRevision) ∧
    (∀ (tl : Bool) (dirs : String → DirSt),
      ∀ a ∈ (cloneRepository env "svn" nm rev tl dirs).2.1,
        a = Act.rmLib nm ∨ a = Act.cloneCmd nm Cmd.svnCheckout) ∧
    (∀ (o : Opts) (st : St) (library : RawEntry) (rest : List RawEntry)
        (url : String) (sha ua : Option String), rev ≠ none → rev ≠ some "" →
      o.breakOnFirstError = false → o.fallbackUrl = "" → o.forceFallback = false →
      library.name? = some nm →
      library.source? = some { type? := some "svn", url? := some url, revision? := rev,
                               sha1? := sha, userAgent? := ua } →
      nm ∉ o.skipLibs → (o.optNames = [] ∨ nm ∈ o.optNames) →
      ¬ cachedStateOk o st library nm →
      (processOne o env st library).2 = none ∧
      (processOne o env st library).1.failed = st.failed ++ [nm] ∧
      processAll o env (library :: rest) st =
        processAll o env rest (processOne o env st library).1) := by
  have hne1 : ¬ (("svn" : String) = "hg") := by decide
  have hne2 : ¬ (("svn" : String) = "git") := by decide
  refine ⟨fun tl dirs h1 h2 h3 => ?_, fun tl dirs a ha => ?_, ?_⟩
  · unfold cloneRepository
    rw [if_neg hne1, if_neg hne2, if_pos rfl]
    cases tl
    · rcases h3 with h3 | h3
      · exact absurd h3 (by simp)
      · by_cases hd : dirs nm ≠ DirSt.absent <;> simp_all
    · simp_all
  · unfold cloneRepository at ha
    rw [if_neg hne1, if_neg hne2, if_pos rfl] at ha
    cases tl
    · by_cases hd : dirs nm ≠ DirSt.absent <;>
        by_cases hc : env.cmdOk nm Cmd.svnCheckout = false <;>
        by_cases hr : rev ≠ none ∧ rev ≠ some "" <;>
        simp_all
    · by_cases hr : rev ≠ none ∧ rev ≠ some "" <;> simp_all
  · intro o st library rest url sha ua h1 h2 hb hfb hff hname hsrc hskip hsel hmiss
    have hcr : ∀ dirs1 : String → DirSt,
        (cloneRepository env "svn" nm rev false dirs1).2.2 ≠ none := by
      intro dirs1
      unfold cloneRepository
      rw [if_neg hne1, if_neg hne2, if_pos rfl]
      by_cases hd : dirs1 nm ≠ DirSt.absent <;>
        by_cases hc : env.cmdOk nm Cmd.svnCheckout = false <;>
        simp_all
    rcases hc2 : cloneRepository env "svn" nm rev false
        (cleanStep o (invalidated st nm).dirs nm).1 with ⟨d2, e2, r⟩
    rcases r with _ | err
    · exact absurd (by rw [hc2]) (hcr (cleanStep o (invalidated st nm).dirs nm).1)
    · have hva : vcsAcquire o env "svn" nm rev (cleanStep o (invalidated st nm).dirs nm).1 =
          (d2, e2, PhaseOut.exn) := by
        unfold vcsAcquire
        rw [if_neg (by simp [hff]), hc2]
        dsimp only
        rw [if_neg (by simp [hfb])]
      have hsp : sourcePhase o env nm library.source?
          (cleanStep o (invalidated st nm).dirs nm).1 = (d2, e2, PhaseOut.exn) := by
        rw [hsrc]
        unfold sourcePhase
        dsimp only
        rw [if_neg (by decide : ¬ ("svn" : String) = "sourcefile"),
          if_neg (by decide : ¬ ("svn" : String) = "archive"), hva]
      have htb : tryBody o env nm library (cleanStep o (invalidated st nm).dirs nm).1 =
          (d2, e2, PhaseOut.exn) := by
        unfold tryBody
        rw [hsp]
      have hmain := processOne_miss o env st library nm hname hskip hsel hmiss
      have hbody := processBody_exn_record o env (invalidated st nm) library nm d2 e2 hb htb
      refine ⟨by rw [hmain, hbody], by rw [hmain, hbody]; rfl, ?_⟩
      show processAll o env (library :: rest) st = _
      simp only [processAll]
      rw [hmain, hbody]

/-- An SVN library pinned to revision `5`. -/
def libSvn : RawEntry :=
  { name? := some "s",
    source? := some { type? := some "svn", url? := some "svn://h/r", revision? := some "5",
                      sha1? := none, userAgent? := none },
    postprocess? := none }

/-- Witness for C8 at a concrete input: the pinned SVN library is caught
as a per-library failure, and the loop outcome is not a halt. -/
theorem svn_revision_per_library_failure_witness :
    (processOne optsBase envAllOk (initSt envAllOk) libSvn).2 = none ∧
    (processOne optsBase envAllOk (initSt envAllOk) libSvn).1.failed =
      (initSt envAllOk).failed ++ ["s"] := by
  have h := (svn_revision_per_library_failure envAllOk "s" (some "5")).2.2
    optsBase (initSt envAllOk) libSvn [] "svn://h/r" none none (by decide) (by decide)
    rfl rfl rfl rfl rfl (by decide) (Or.inl rfl) (by decide)
  exact ⟨h.1, h.2.1⟩

/-- Counterexample for C8 as stated: with a pinned SVN library followed
by a plain one, the run is NOT aborted — the second library is fully
processed and only the SVN library lands in the failure summary. -/
theorem svn_revision_per_library_failure_cex :
    (bootstrapMain optsBase envAllOk [libSvn, libGood] none).2 = FinalStatus.failSummary ∧
    (bootstrapMain optsBase envAllOk [libSvn, libGood] none).1.failed = ["s"] ∧
    Ev.addCache libGood ∈ (bootstrapMain optsBase envAllOk [libSvn, libGood] none).1.trace :=
  ⟨rfl, rfl, by decide⟩

/-! ## Claim C9: null-source entries and the workspace directory -/

/-- Claim C9 (amended): for a reprocessed entry with a null `source` the
acquisition phase removes the workspace directory and recreates it empty
(`rmtree` then `mkdir`), so it exists and is empty when post-processing
starts; when the entry has no post-processing step the directory is
still empty when the library completes.  A patch or script step runs in
that directory afterwards and may populate it. -/
theorem null_source_workspace (o : Opts) (env : Env) (st : St) (library : RawEntry)
    (nm : String) (hname : library.name? = some nm)
    (hskip : nm ∉ o.skipLibs) (hsel : o.optNames = [] ∨ nm ∈ o.optNames)
    (hmiss : ¬ cachedStateOk o st library nm) (hsrc : library.source? = none) :
    (∀ dirs : String → DirSt, sourcePhase o env nm none dirs =
      (upd dirs nm DirSt.empty, [Act.rmLib nm, Act.mkLib nm], PhaseOut.ok)) ∧
    (library.postprocess? = none →
      (processOne o env st library).1.dirs nm = DirSt.empty ∧
      (processOne o env st library).2 = none) := by
  refine ⟨fun dirs => rfl, fun hpost => ?_⟩
  have htb : tryBody o env nm library (cleanStep o (invalidated st nm).dirs nm).1 =
      (upd (cleanStep o (invalidated st nm).dirs nm).1 nm DirSt.empty,
        [Act.rmLib nm, Act.mkLib nm], PhaseOut.ok) := by
    unfold tryBody
    rw [hsrc]
    rw [show sourcePhase o env nm none (cleanStep o (invalidated st nm).dirs nm).1 =
      (upd (cleanStep o (invalidated st nm).dirs nm).1 nm DirSt.empty,
        [Act.rmLib nm, Act.mkLib nm], PhaseOut.ok) from rfl]
    dsimp only
    rw [hpost]
    simp [postPhase]
  have hmain := processOne_miss o env st library nm hname hskip hsel hmiss
  have hbody := processBody_ok o env (invalidated st nm) library nm _ _ htb
  rw [hmain, hbody]
  exact ⟨by simp [upd], rfl⟩

/-- Witness for C9 at a concrete input: a null-source, no-post entry ends
with an existing empty workspace directory. -/
theorem null_source_workspace_witness :
    (processOne optsBase envCrash (initSt envCrash) libX).1.dirs "x" = DirSt.empty :=
  ((null_source_workspace optsBase envCrash (initSt envCrash) libX "x" rfl (by decide)
    (Or.inl rfl) (by decide) rfl).2 rfl).1

/-- A null-source library named `x` with a patch post-processing step. -/
def libNullPatch : RawEntry :=
  { name? := some "x", source? := none,
    postprocess? := some { type? := some "patch", file? := some "x.patch", pnum? := none } }

/-- Counterexample for C9 as stated: the claim asserts the workspace is
empty after processing regardless of a `postprocess` step, but a patch
step runs in the freshly emptied directory and populates it — after
processing the directory is non-empty (and the library succeeded). -/
theorem null_source_workspace_cex :
    (processOne optsBase envAllOk (initSt envAllOk) libNullPatch).1.dirs "x" =
      DirSt.nonempty ∧
    (processOne optsBase envAllOk (initSt envAllOk) libNullPatch).2 = none :=
  ⟨rfl, rfl⟩

/-! ## Claim C10: workspace cleanup on acquisition failure -/

/-- Claim C10 (amended): with no fallback URL configured, a failed
`sourcefile` acquisition removes the library's whole workspace directory
before re-raising, while the `archive` branch itself never removes it:
after a failed archive download the directory is exactly as it was — but
when the download succeeds and extraction fails, the directory has
already been removed by the extractor's pre-extraction cleanup, so it is
gone even though the orchestrator's handler deleted nothing. -/
theorem acquisition_failure_workspace (o : Opts) (env : Env) (nm : String)
    (dirs : String → DirSt) (hff : o.forceFallback = false) (hfb : o.fallbackUrl = "") :
    (env.downloadOk nm = false →
      sourcefileAcquire o env nm dirs =
        (upd dirs nm DirSt.absent, [Act.download nm false, Act.rmLib nm], PhaseOut.exn)) ∧
    (env.downloadOk nm = false →
      archiveAcquire o env nm dirs = (dirs, [Act.download nm false], PhaseOut.exn)) ∧
    (env.downloadOk nm = true → env.extractOk nm = false →
      archiveAcquire o env nm dirs =
        (upd dirs nm DirSt.absent, [Act.download nm false, Act.extract nm false],
          PhaseOut.exn)) := by
  refine ⟨fun hdl => ?_, fun hdl => ?_, fun hdl hex => ?_⟩
  · unfold sourcefileAcquire
    simp [hff, hdl, hfb]
  · unfold archiveAcquire
    simp [hff, hdl, hfb]
  · unfold archiveAcquire extractStep
    simp [hff, hdl, hex, hfb]

/-- Witness for C10 at a concrete input: a failed `sourcefile` download
with no fallback removes the workspace directory. -/
theorem acquisition_failure_workspace_witness :
    sourcefileAcquire optsBase envDownloadFail "x" (fun _ => DirSt.nonempty) =
      (upd (fun _ => DirSt.nonempty) "x" DirSt.absent,
        [Act.download "x" false, Act.rmLib "x"], PhaseOut.exn) :=
  (acquisition_failure_workspace optsBase envDownloadFail "x" (fun _ => DirSt.nonempty)
    rfl rfl).1 rfl

/-- An environment in which downloads succeed but extraction fails, and
all workspace directories initially exist with contents. -/
def envExtractFail : Env :=
  { envAllOk with extractOk := fun _ => false, initDir := fun _ => DirSt.nonempty }

/-- An `archive` library named `x`. -/
def libArch : RawEntry :=
  { name? := some "x",
    source? := some { type? := some "archive", url? := some "http://h/x.zip",
                      revision? := none, sha1? := none, userAgent? := none },
    postprocess? := none }

/-- Counterexample for C10 as stated: a failed `archive` acquisition does
not always leave the workspace directory in place — when the download
succeeds and extraction fails, the extractor has already deleted the
directory, so after the failure it is absent. -/
theorem acquisition_failure_workspace_cex :
    (initSt envExtractFail).dirs "x" = DirSt.nonempty ∧
    (processOne optsBase envExtractFail (initSt envExtractFail) libArch).1.dirs "x" =
      DirSt.absent ∧
    (processOne optsBase envExtractFail (initSt envExtractFail) libArch).1.failed = ["x"] :=
  ⟨rfl, rfl, rfl⟩

end Bootstrap
